import Mathlib

/-!
Verification of the SmartX backend decision-fusion and execution path.

The definitions below are a shallow embedding of the JavaScript source:
the closed enumerations of the TradingSignal sequelize model
(src/models/tradingSignal.model.js), the weighted fusion and trade
execution of GrokEngine (src/modules/grokEngine), the sentiment signal
generation of TwitterMonitorModule (src/modules/twitterMonitor), and the
job admission options of HiveMatrix.queueTrade (src/modules/hiveMatrix).
JavaScript numbers are modelled exactly by the four-constructor type
JsNum below: the fused weights can leave the rationals (division by a
zero total weight produces NaN), and the sequelize min/max validators
pass NaN through their isNaN short-circuit, so the store itself can
hold a NaN confidence.
-/

namespace SmartX

/-- Closed enumeration of the action column of the TradingSignal model. -/
inductive Action where
  | buy
  | sell
  | hold
deriving DecidableEq, Repr

/-- Closed enumeration of the source column of the TradingSignal model. -/
inductive Source where
  | CYBER_METRICS
  | TWITTER_MONITOR
  | DEEPSEEK_AI
  | GROK_ENGINE
deriving DecidableEq, Repr

/-- Closed enumeration of the status column of the TradingSignal model. -/
inductive Status where
  | pending
  | executed
  | expired
  | cancelled
deriving DecidableEq, Repr

/-- A JavaScript number as used by the fusion arithmetic: an exact
rational, one of the two infinities, or NaN.  Rationals stand for the
doubles the code computes; the special values arise from division by
zero and propagate through the arithmetic exactly as in JavaScript. -/
inductive JsNum where
  | num (q : ℚ)
  | posInf
  | negInf
  | nan
deriving DecidableEq, Repr

namespace JsNum

/-- JavaScript unary minus. -/
def neg : JsNum → JsNum
  | .num q => .num (-q)
  | .posInf => .negInf
  | .negInf => .posInf
  | .nan => .nan

/-- JavaScript addition. -/
def add : JsNum → JsNum → JsNum
  | .nan, _ => .nan
  | .num a, .num b => .num (a + b)
  | .num _, .posInf => .posInf
  | .num _, .negInf => .negInf
  | .num _, .nan => .nan
  | .posInf, .num _ => .posInf
  | .posInf, .posInf => .posInf
  | .posInf, .negInf => .nan
  | .posInf, .nan => .nan
  | .negInf, .num _ => .negInf
  | .negInf, .posInf => .nan
  | .negInf, .negInf => .negInf
  | .negInf, .nan => .nan

/-- JavaScript subtraction, a - b = a + (-b). -/
def sub (a b : JsNum) : JsNum := a.add b.neg

/-- JavaScript multiplication. -/
def mul : JsNum → JsNum → JsNum
  | .nan, _ => .nan
  | .num a, .num b => .num (a * b)
  | .num a, .posInf => if 0 < a then .posInf else if a < 0 then .negInf else .nan
  | .num a, .negInf => if 0 < a then .negInf else if a < 0 then .posInf else .nan
  | .num _, .nan => .nan
  | .posInf, .num b => if 0 < b then .posInf else if b < 0 then .negInf else .nan
  | .posInf, .posInf => .posInf
  | .posInf, .negInf => .negInf
  | .posInf, .nan => .nan
  | .negInf, .num b => if 0 < b then .negInf else if b < 0 then .posInf else .nan
  | .negInf, .posInf => .negInf
  | .negInf, .negInf => .posInf
  | .negInf, .nan => .nan

/-- JavaScript division.  Division of a nonzero finite number by zero
gives a signed infinity; zero divided by zero gives NaN. -/
def div : JsNum → JsNum → JsNum
  | .nan, _ => .nan
  | .num a, .num b =>
      if b ≠ 0 then .num (a / b)
      else if 0 < a then .posInf
      else if a < 0 then .negInf
      else .nan
  | .num _, .posInf => .num 0
  | .num _, .negInf => .num 0
  | .num _, .nan => .nan
  | .posInf, .num b => if b < 0 then .negInf else .posInf
  | .posInf, .posInf => .nan
  | .posInf, .negInf => .nan
  | .posInf, .nan => .nan
  | .negInf, .num b => if b < 0 then .posInf else .negInf
  | .negInf, .posInf => .nan
  | .negInf, .negInf => .nan
  | .negInf, .nan => .nan

/-- JavaScript strict greater-than; any comparison with NaN is false. -/
def gt : JsNum → JsNum → Bool
  | .nan, _ => false
  | .num a, .num b => decide (b < a)
  | .num _, .posInf => false
  | .num _, .negInf => true
  | .num _, .nan => false
  | .posInf, .num _ => true
  | .posInf, .posInf => false
  | .posInf, .negInf => true
  | .posInf, .nan => false
  | .negInf, .num _ => false
  | .negInf, .posInf => false
  | .negInf, .negInf => false
  | .negInf, .nan => false

/-- JavaScript strict less-than; any comparison with NaN is false. -/
def lt : JsNum → JsNum → Bool
  | .nan, _ => false
  | .num a, .num b => decide (a < b)
  | .num _, .posInf => true
  | .num _, .negInf => false
  | .num _, .nan => false
  | .posInf, .num _ => false
  | .posInf, .posInf => false
  | .posInf, .negInf => false
  | .posInf, .nan => false
  | .negInf, .num _ => true
  | .negInf, .posInf => true
  | .negInf, .negInf => false
  | .negInf, .nan => false

end JsNum

/-- The metadata JSONB column, modelled as a record of the fields the
modules actually write (absent fields default to their empty value). -/
structure Metadata where
  signalSources : List Source := []
  signalIds : List ℕ := []
  buyWeight : Option JsNum := none
  sellWeight : Option JsNum := none
  holdWeight : Option JsNum := none
  reason : Option String := none
  tweetCount : Option ℕ := none
  avgSentiment : Option ℚ := none
  influencers : List String := []
deriving DecidableEq, Repr

/-- A row of the TradingSignal table.  The confidence column carries the
sequelize min 0 / max 100 validators, but both validators pass NaN
through their isNaN short-circuit, so a stored confidence is either a
finite rational in [0,100] or NaN; ids are modelled as naturals assigned
by the store. -/
structure StoredSignal where
  id : ℕ
  symbol : String
  action : Action
  confidence : JsNum
  price : ℚ
  timeframe : String
  source : Source
  status : Status
  expiresAt : ℕ
  metadata : Metadata
deriving DecidableEq, Repr

/-- The values a module hands to TradingSignal.create before validation;
the confidence is whatever JavaScript number the caller computed. -/
structure NewSignal where
  symbol : String
  action : Action
  confidence : JsNum
  price : ℚ
  timeframe : String
  source : Source
  status : Status
  expiresAt : ℕ
  metadata : Metadata
deriving DecidableEq, Repr

/-- Database-level rejection of a malformed row. -/
inductive DbError where
  | validationFailed
deriving DecidableEq, Repr

/-- The sequelize v6 min (0) and max (100) validators on the confidence
column.  Each validator short-circuits on NaN (the isNaN check of
validator-extras), so NaN passes both and is accepted; a finite value
must lie in [0,100]; positive infinity fails the max validator and
negative infinity fails the min validator. -/
def validConfidence : JsNum → Bool
  | .num q => decide (0 ≤ q) && decide (q ≤ 100)
  | .nan => true
  | .posInf => false
  | .negInf => false

/-- TradingSignal.findByPk on an in-memory table. -/
def findByPk (store : List StoredSignal) (i : ℕ) : Option StoredSignal :=
  store.find? (fun s => s.id == i)

/-- The signal.update call of sequelize: rewrite the row with the given
id in place, leaving every other row untouched. -/
def updateSignal (store : List StoredSignal) (i : ℕ)
    (f : StoredSignal → StoredSignal) : List StoredSignal :=
  store.map (fun s => if s.id = i then f s else s)

/-- TradingSignal.create: run the confidence validators, assign the next
id, and append the row with the confidence stored as given (in
particular a NaN confidence is stored as NaN); on validation failure the
table is unchanged. -/
def TradingSignal.create (store : List StoredSignal) (n : NewSignal) :
    Except DbError StoredSignal × List StoredSignal :=
  if validConfidence n.confidence then
    let s : StoredSignal :=
      { id := store.length, symbol := n.symbol, action := n.action,
        confidence := n.confidence, price := n.price, timeframe := n.timeframe,
        source := n.source, status := n.status, expiresAt := n.expiresAt,
        metadata := n.metadata }
    (.ok s, store ++ [s])
  else (.error .validationFailed, store)

/-- The body of the weight accumulation loop of GrokEngine.analyzeMarket:
weight = confidence / 100 in JavaScript arithmetic; the buy and sell
components accumulate by action, and every signal contributes to the
total component. -/
def accumStep (acc : JsNum × JsNum × JsNum) (signal : StoredSignal) :
    JsNum × JsNum × JsNum :=
  let w := JsNum.div signal.confidence (.num 100)
  match signal.action with
  | .buy => (JsNum.add acc.1 w, acc.2.1, JsNum.add acc.2.2 w)
  | .sell => (acc.1, JsNum.add acc.2.1 w, JsNum.add acc.2.2 w)
  | .hold => (acc.1, acc.2.1, JsNum.add acc.2.2 w)

/-- The weight accumulation loop of GrokEngine.analyzeMarket, producing
(buyWeight, sellWeight, totalWeight) before normalization. -/
def accumWeights (signals : List StoredSignal) : JsNum × JsNum × JsNum :=
  signals.foldl accumStep (.num 0, .num 0, .num 0)

/-- The fused decision of GrokEngine.analyzeMarket. -/
structure FusionResult where
  action : Action
  confidence : JsNum
  buyWeight : JsNum
  sellWeight : JsNum
  holdWeight : JsNum
deriving DecidableEq, Repr

/-- The normalization and decision steps of GrokEngine.analyzeMarket:
buyWeight and sellWeight are divided by totalWeight (JavaScript division,
so a zero total yields NaN), holdWeight = 1 - buyWeight - sellWeight, and
the action is chosen by the two strict comparisons of the source, the
final else keeping hold with confidence holdWeight * 100. -/
def fuseSignals (signals : List StoredSignal) : FusionResult :=
  let acc := accumWeights signals
  let buyWeight := JsNum.div acc.1 acc.2.2
  let sellWeight := JsNum.div acc.2.1 acc.2.2
  let holdWeight := JsNum.sub (JsNum.sub (.num 1) buyWeight) sellWeight
  if JsNum.gt buyWeight sellWeight && JsNum.gt buyWeight holdWeight then
    { action := .buy, confidence := JsNum.mul buyWeight (.num 100),
      buyWeight := buyWeight, sellWeight := sellWeight, holdWeight := holdWeight }
  else if JsNum.gt sellWeight buyWeight && JsNum.gt sellWeight holdWeight then
    { action := .sell, confidence := JsNum.mul sellWeight (.num 100),
      buyWeight := buyWeight, sellWeight := sellWeight, holdWeight := holdWeight }
  else
    { action := .hold, confidence := JsNum.mul holdWeight (.num 100),
      buyWeight := buyWeight, sellWeight := sellWeight, holdWeight := holdWeight }

/-- A minimal stored signal with a finite confidence, used to state
concrete fusion examples. -/
def exSig (a : Action) (c : ℚ) : StoredSignal :=
  { id := 0, symbol := "BTC", action := a, confidence := .num c, price := 0,
    timeframe := "4h", source := .CYBER_METRICS, status := .pending,
    expiresAt := 0, metadata := {} }

/-- The decision step of the fusion, written over exact rationals; it is
what fuseSignals computes whenever the total weight is a nonzero number
(lemma fuseSignals_spec below).  B and S are the normalized buy and sell
weights, and 1 - B - S the hold weight. -/
def decideWeights (B S : ℚ) : Action × ℚ :=
  if S < B ∧ 1 - B - S < B then (.buy, B * 100)
  else if B < S ∧ 1 - B - S < S then (.sell, S * 100)
  else (.hold, (1 - B - S) * 100)

lemma JsNum.add_num (a b : ℚ) : JsNum.add (.num a) (.num b) = .num (a + b) := rfl

lemma JsNum.add_zero (x : JsNum) : JsNum.add x (.num 0) = x := by
  cases x <;> simp [JsNum.add]

lemma JsNum.sub_num (a b : ℚ) : JsNum.sub (.num a) (.num b) = .num (a - b) := by
  simp [JsNum.sub, JsNum.add, JsNum.neg, sub_eq_add_neg]

lemma JsNum.mul_num (a b : ℚ) : JsNum.mul (.num a) (.num b) = .num (a * b) := rfl

lemma JsNum.div_num (a b : ℚ) (hb : b ≠ 0) :
    JsNum.div (.num a) (.num b) = .num (a / b) := by
  simp [JsNum.div, hb]

lemma JsNum.gt_num (a b : ℚ) : JsNum.gt (.num a) (.num b) = decide (b < a) := rfl

lemma JsNum.lt_num (a b : ℚ) : JsNum.lt (.num a) (.num b) = decide (a < b) := rfl

/-- When the accumulated weights are finite numbers with a nonzero
total, the fusion computes exact rationals and agrees with the rational
decision step. -/
lemma fuseSignals_spec (signals : List StoredSignal) (b s t : ℚ)
    (hacc : accumWeights signals = (.num b, .num s, .num t))
    (ht : t ≠ 0) :
    fuseSignals signals =
      { action := (decideWeights (b / t) (s / t)).1,
        confidence := .num ((decideWeights (b / t) (s / t)).2),
        buyWeight := .num (b / t),
        sellWeight := .num (s / t),
        holdWeight := .num (1 - b / t - s / t) } := by
  unfold fuseSignals decideWeights
  rw [hacc]
  dsimp only
  rw [JsNum.div_num _ _ ht, JsNum.div_num _ _ ht, JsNum.sub_num, JsNum.sub_num]
  rw [JsNum.gt_num, JsNum.gt_num, JsNum.gt_num, JsNum.gt_num]
  simp only [Bool.and_eq_true, decide_eq_true_eq, JsNum.mul_num]
  split_ifs <;> rfl

/-- All-zero confidences accumulate to zero weights. -/
lemma accumWeights_allzero (signals : List StoredSignal)
    (h : ∀ x ∈ signals, x.confidence = JsNum.num 0) :
    accumWeights signals = (.num 0, .num 0, .num 0) := by
  have general : ∀ (l : List StoredSignal),
      (∀ x ∈ l, x.confidence = JsNum.num 0) →
      ∀ init : JsNum × JsNum × JsNum, l.foldl accumStep init = init := by
    intro l
    induction l with
    | nil => intro _ init; rfl
    | cons a t ih =>
        intro hl init
        have ha : a.confidence = JsNum.num 0 := hl a (List.mem_cons_self a t)
        have hrest : ∀ x ∈ t, x.confidence = JsNum.num 0 :=
          fun x hx => hl x (List.mem_cons_of_mem a hx)
        rw [List.foldl_cons]
        have hw : JsNum.div (JsNum.num 0) (JsNum.num 100) = JsNum.num 0 := by
          rw [JsNum.div_num _ _ (by norm_num)]
          norm_num
        have hstep : accumStep init a = init := by
          unfold accumStep
          rw [ha]
          dsimp only
          rw [hw]
          cases a.action <;> simp [JsNum.add_zero]
        rw [hstep]
        exact ih hrest init
  exact general signals h (.num 0, .num 0, .num 0)

/-- C1: for a signal set whose accumulated weights are finite with
positive total t, the fused action is buy exactly when the normalized
buy weight b/t strictly exceeds both other weights, sell exactly in the
symmetric case, hold otherwise (ties go to hold), and the confidence is
the winning weight times 100; the two concrete fusions of the claim
evaluate as stated, with (0.9 + 0.8) / (0.9 + 0.8 + 0.5) * 100 = 850/11
≈ 77.27. -/
theorem fusion_decision_rule (signals : List StoredSignal) (b s t : ℚ)
    (hacc : accumWeights signals = (.num b, .num s, .num t))
    (ht : 0 < t) :
    ((fuseSignals signals).action = Action.buy ↔
        s / t < b / t ∧ 1 - b / t - s / t < b / t) ∧
    ((fuseSignals signals).action = Action.sell ↔
        b / t < s / t ∧ 1 - b / t - s / t < s / t) ∧
    ((fuseSignals signals).action = Action.hold ↔
        ¬(s / t < b / t ∧ 1 - b / t - s / t < b / t) ∧
        ¬(b / t < s / t ∧ 1 - b / t - s / t < s / t)) ∧
    (fuseSignals signals).confidence =
      JsNum.num ((if (fuseSignals signals).action = Action.buy then b / t
        else if (fuseSignals signals).action = Action.sell then s / t
        else 1 - b / t - s / t) * 100) ∧
    (fuseSignals [exSig .buy 90, exSig .buy 80, exSig .sell 50]).action
      = Action.buy ∧
    (fuseSignals [exSig .buy 90, exSig .buy 80, exSig .sell 50]).confidence
      = JsNum.num (850 / 11) ∧
    (fuseSignals [exSig .buy 50, exSig .sell 50]).action = Action.hold ∧
    (fuseSignals [exSig .buy 50, exSig .sell 50]).confidence = JsNum.num 0 := by
  have hspec := fuseSignals_spec signals b s t hacc ht.ne'
  have e1 : accumWeights [exSig .buy 90, exSig .buy 80, exSig .sell 50]
      = (.num (17/10), .num (1/2), .num (11/5)) := by
    norm_num [accumWeights, accumStep, exSig, JsNum.div, JsNum.add]
  have e2 : accumWeights [exSig .buy 50, exSig .sell 50]
      = (.num (1/2), .num (1/2), .num 1) := by
    norm_num [accumWeights, accumStep, exSig, JsNum.div, JsNum.add]
  have h1 := fuseSignals_spec [exSig .buy 90, exSig .buy 80, exSig .sell 50]
      (17/10) (1/2) (11/5) e1 (by norm_num)
  have h2 := fuseSignals_spec [exSig .buy 50, exSig .sell 50]
      (1/2) (1/2) 1 e2 (by norm_num)
  refine ⟨?_, ?_, ?_, ?_, ?_, ?_, ?_, ?_⟩
  · rw [hspec]; unfold decideWeights
    split_ifs with hc1 hc2
    · simp [hc1]
    · simp [hc1]
    · simp [hc1]
  · rw [hspec]; unfold decideWeights
    split_ifs with hc1 hc2
    · refine iff_of_false (by simp) ?_
      rintro ⟨hbs, _⟩
      exact absurd hbs (not_lt.mpr hc1.1.le)
    · simp [hc2]
    · exact iff_of_false (by simp) hc2
  · rw [hspec]; unfold decideWeights
    split_ifs with hc1 hc2
    · refine iff_of_false (by simp) ?_
      rintro ⟨h, _⟩
      exact h hc1
    · refine iff_of_false (by simp) ?_
      rintro ⟨_, h⟩
      exact h hc2
    · exact iff_of_true rfl ⟨hc1, hc2⟩
  · rw [hspec]; unfold decideWeights
    by_cases hc1 : s / t < b / t ∧ 1 - b / t - s / t < b / t
    · simp [hc1]
    · by_cases hc2 : b / t < s / t ∧ 1 - b / t - s / t < s / t
      · simp [hc1, hc2]
      · simp [hc1, hc2]
  · rw [h1]; unfold decideWeights; norm_num
  · rw [h1]; unfold decideWeights; norm_num
  · rw [h2]; unfold decideWeights; norm_num
  · rw [h2]; unfold decideWeights; norm_num

/-- Witness for fusion_decision_rule: the first concrete signal set
accumulates to finite weights with positive total 11/5 and fuses to a
buy decision. -/
theorem fusion_decision_rule_witness :
    accumWeights [exSig .buy 90, exSig .buy 80, exSig .sell 50]
      = (.num (17/10), .num (1/2), .num (11/5)) ∧
    (0:ℚ) < 11/5 ∧
    (fuseSignals [exSig .buy 90, exSig .buy 80, exSig .sell 50]).action
      = Action.buy := by
  have e1 : accumWeights [exSig .buy 90, exSig .buy 80, exSig .sell 50]
      = (.num (17/10), .num (1/2), .num (11/5)) := by
    norm_num [accumWeights, accumStep, exSig, JsNum.div, JsNum.add]
  exact ⟨e1, by norm_num,
    (fusion_decision_rule _ _ _ _ e1 (by norm_num)).2.2.2.2.1⟩

/-- C2 counterexample: fusing the single signal buy with confidence 0
(total weight zero) produces confidence NaN, not 0: the normalizing
division is not guarded. -/
theorem fusion_zero_weight_confidence_not_zero :
    (fuseSignals [exSig .buy 0]).confidence = JsNum.nan ∧
    JsNum.nan ≠ JsNum.num 0 := by
  have hacc : accumWeights [exSig .buy 0] = (.num 0, .num 0, .num 0) := by
    norm_num [accumWeights, accumStep, exSig, JsNum.div, JsNum.add]
  constructor
  · unfold fuseSignals
    rw [hacc]
    norm_num [JsNum.div, JsNum.sub, JsNum.add, JsNum.neg, JsNum.gt, JsNum.mul]
  · simp

/-- Errors thrown by GrokEngine.executeTrade before any state change.
The invalidTransition constructor is the throw on a signal whose stored
status is not pending (the message "Signal is already ..."). -/
inductive TradeError where
  | signalNotFound
  | notGrokEngine
  | invalidTransition (current : Status)
deriving DecidableEq, Repr

/-- Result of a non-throwing run of GrokEngine.executeTrade: either the
low-confidence cancellation (returned with success false) or the
executed trade with the fields the source returns. -/
inductive TradeOutcome where
  | lowConfidence
  | executed (signalId : ℕ) (a : Action) (symbol : String) (price : ℚ)
      (confidence : JsNum) (executedAt : ℕ)
deriving DecidableEq, Repr

/-- GrokEngine.executeTrade: look the signal up by id; reject a missing
signal, a non-GROK_ENGINE source, and a non-pending status, in that
order, without touching the store; cancel (recording the reason in
metadata) when confidence < 75 in the JavaScript comparison (false for
NaN); otherwise mark the signal executed.  The clock argument only
feeds the executedAt field of the result. -/
def GrokEngine.executeTrade (store : List StoredSignal) (now : ℕ)
    (signalId : ℕ) : Except TradeError TradeOutcome × List StoredSignal :=
  match findByPk store signalId with
  | none => (.error .signalNotFound, store)
  | some signal =>
    if signal.source ≠ Source.GROK_ENGINE then (.error .notGrokEngine, store)
    else if signal.status ≠ Status.pending then
      (.error (.invalidTransition signal.status), store)
    else if JsNum.lt signal.confidence (.num 75) then
      (.ok .lowConfidence,
        updateSignal store signalId (fun s =>
          { s with status := .cancelled,
                   metadata := { s.metadata with reason := some "Low confidence" } }))
    else
      (.ok (.executed signalId signal.action signal.symbol signal.price
          signal.confidence now),
        updateSignal store signalId (fun s => { s with status := .executed }))

/-- Result of the decision phase of GrokEngine.analyzeMarket. -/
inductive AnalyzeResult where
  | noValidSignals
  | decision (action : Action) (confidence : JsNum) (signalId : ℕ)
      (sourceSignals : ℕ)
  | analysisFailed
deriving DecidableEq, Repr

/-- The fusion-and-persist phase of GrokEngine.analyzeMarket, given the
collected valid signals for the symbol: with no signals it returns the
success-false result without touching the store; otherwise it fuses the
signals, creates the GROK_ENGINE signal (price of the first signal, 12h
timeframe and expiry, metadata recording contributing sources, ids and
the normalized weights) and reports the decision.  A validation failure
of the created row surfaces as the thrown analysis error. -/
def GrokEngine.analyzeMarket (store : List StoredSignal) (now : ℕ)
    (symbol : String) (signals : List StoredSignal) :
    AnalyzeResult × List StoredSignal :=
  match signals with
  | [] => (.noValidSignals, store)
  | first :: rest =>
      let fr := fuseSignals (first :: rest)
      let n : NewSignal :=
        { symbol := symbol, action := fr.action, confidence := fr.confidence,
          price := first.price, timeframe := "12h", source := .GROK_ENGINE,
          status := .pending, expiresAt := now + 12 * 60 * 60 * 1000,
          metadata := { signalSources := (first :: rest).map (fun s => s.source),
                        signalIds := (first :: rest).map (fun s => s.id),
                        buyWeight := some fr.buyWeight,
                        sellWeight := some fr.sellWeight,
                        holdWeight := some fr.holdWeight } }
      match TradingSignal.create store n with
      | (.ok s, store2) =>
          (.decision fr.action fr.confidence s.id (first :: rest).length, store2)
      | (.error _, store2) => (.analysisFailed, store2)

/-- C2 as amended: fusing a nonempty eligible signal set all of whose
confidences are zero yields action hold, but the unguarded 0/0
normalization makes the confidence NaN rather than 0 (no fault is
raised; NaN just propagates), the sequelize validators pass NaN, and so
the NaN composite row is persisted and a hold/NaN decision returned. -/
theorem fusion_zero_weight_yields_nan
    (store : List StoredSignal) (now : ℕ) (symbol : String)
    (first : StoredSignal) (rest : List StoredSignal)
    (h : ∀ x ∈ first :: rest, x.confidence = JsNum.num 0) :
    (fuseSignals (first :: rest)).action = Action.hold ∧
    (fuseSignals (first :: rest)).confidence = JsNum.nan ∧
    ∃ g : StoredSignal,
      GrokEngine.analyzeMarket store now symbol (first :: rest)
        = (AnalyzeResult.decision Action.hold JsNum.nan g.id
            (first :: rest).length, store ++ [g]) ∧
      g.confidence = JsNum.nan ∧ g.status = Status.pending := by
  have hacc := accumWeights_allzero (first :: rest) h
  have hfs : fuseSignals (first :: rest) =
      { action := Action.hold, confidence := JsNum.nan,
        buyWeight := JsNum.nan, sellWeight := JsNum.nan,
        holdWeight := JsNum.nan } := by
    unfold fuseSignals
    rw [hacc]
    norm_num [JsNum.div, JsNum.sub, JsNum.add, JsNum.neg, JsNum.gt, JsNum.mul]
  refine ⟨by rw [hfs], by rw [hfs],
    ⟨{ id := store.length, symbol := symbol, action := Action.hold,
       confidence := JsNum.nan, price := first.price, timeframe := "12h",
       source := .GROK_ENGINE, status := .pending,
       expiresAt := now + 12 * 60 * 60 * 1000,
       metadata := { signalSources := (first :: rest).map (fun s => s.source),
                     signalIds := (first :: rest).map (fun s => s.id),
                     buyWeight := some JsNum.nan,
                     sellWeight := some JsNum.nan,
                     holdWeight := some JsNum.nan } }, ?_, rfl, rfl⟩⟩
  unfold GrokEngine.analyzeMarket TradingSignal.create
  dsimp only
  rw [hfs]
  rfl

/-- Witness for fusion_zero_weight_yields_nan at a concrete all-zero
signal set: hold with NaN confidence, the NaN row persisted. -/
theorem fusion_zero_weight_yields_nan_witness :
    (∀ x ∈ [exSig Action.buy 0], x.confidence = JsNum.num 0) ∧
    (fuseSignals [exSig Action.buy 0]).action = Action.hold ∧
    ∃ g : StoredSignal,
      GrokEngine.analyzeMarket [] 0 "BTC" [exSig Action.buy 0]
        = (AnalyzeResult.decision Action.hold JsNum.nan g.id 1, [] ++ [g]) ∧
      g.confidence = JsNum.nan ∧ g.status = Status.pending := by
  have h : ∀ x ∈ [exSig Action.buy 0], x.confidence = JsNum.num 0 := by
    intro x hx
    simp only [List.mem_singleton] at hx
    rw [hx]
    rfl
  obtain ⟨h1, _, hg⟩ :=
    fusion_zero_weight_yields_nan [] 0 "BTC" (exSig Action.buy 0) [] h
  exact ⟨h, h1, hg⟩

/-- The raw values of a signal submitted from outside, before the model
enumerations and the confidence validators have been applied. -/
structure RawSignal where
  symbol : String
  action : String
  confidence : JsNum
  price : ℚ
  timeframe : String
  source : String
  status : String
  expiresAt : ℕ
  metadata : Metadata
deriving DecidableEq, Repr

/-- The closed action enumeration of the model as a parser on the raw
string; anything outside buy, sell, hold is rejected. -/
def parseAction (a : String) : Option Action :=
  if a = "buy" then some .buy
  else if a = "sell" then some .sell
  else if a = "hold" then some .hold
  else none

/-- The closed source enumeration of the model as a parser. -/
def parseSource (s : String) : Option Source :=
  if s = "CYBER_METRICS" then some .CYBER_METRICS
  else if s = "TWITTER_MONITOR" then some .TWITTER_MONITOR
  else if s = "DEEPSEEK_AI" then some .DEEPSEEK_AI
  else if s = "GROK_ENGINE" then some .GROK_ENGINE
  else none

/-- The closed status enumeration of the model as a parser. -/
def parseStatus (s : String) : Option Status :=
  if s = "pending" then some .pending
  else if s = "executed" then some .executed
  else if s = "expired" then some .expired
  else if s = "cancelled" then some .cancelled
  else none

/-- Ingest of a fully-formed raw signal: the enumerations and the
confidence validators are applied before the row is stored; any failure
rejects the submission and leaves the store unchanged. -/
def submitSignal (store : List StoredSignal) (r : RawSignal) :
    Except DbError StoredSignal × List StoredSignal :=
  match parseAction r.action, parseSource r.source, parseStatus r.status with
  | some a, some src, some st =>
      TradingSignal.create store
        { symbol := r.symbol, action := a, confidence := r.confidence,
          price := r.price, timeframe := r.timeframe, source := src,
          status := st, expiresAt := r.expiresAt, metadata := r.metadata }
  | _, _, _ => (.error .validationFailed, store)

/-- Backoff policy of a queued job (spec section 4.3). -/
inductive BackoffType where
  | fixed
  | exponential
deriving DecidableEq, Repr

/-- Backoff configuration: type and base delay in milliseconds. -/
structure BackoffPolicy where
  type : BackoffType
  delay : ℕ
deriving DecidableEq, Repr

/-- Lifecycle states of a queued job (spec section 3). -/
inductive JobState where
  | queued
  | running
  | succeeded
  | failed
  | exhausted
deriving DecidableEq, Repr

/-- A job of the HIVE_MATRIX queues: admission options plus the retry
bookkeeping.  The attempt field counts deliveries made so far. -/
structure Job where
  lane : String
  priority : ℕ
  attempt : ℕ
  maxAttempts : ℕ
  backoff : BackoffPolicy
  state : JobState
deriving DecidableEq, Repr

/-- Modelled from the spec: the Bull library that backs the HIVE_MATRIX
queues is external to the repository, so its retry behaviour is taken
from spec sections 3 and 4.3: a delivery of a queued job consumes one
attempt; on success the job succeeds, on failure it is re-queued while
attempts remain and becomes exhausted when they are spent; terminal jobs
are immutable. -/
def deliverJob (j : Job) (success : Bool) : Job :=
  if j.state = JobState.queued then
    let a := j.attempt + 1
    if success then { j with attempt := a, state := .succeeded }
    else if a < j.maxAttempts then { j with attempt := a, state := .queued }
    else { j with attempt := a, state := .exhausted }
  else j

/-- Modelled from the spec: the retry delay before a re-queued delivery,
fixed or exponential in the attempt number (base delay times 2 to the
attempt). -/
def backoffDelay (p : BackoffPolicy) (attempt : ℕ) : ℕ :=
  match p.type with
  | .fixed => p.delay
  | .exponential => p.delay * 2 ^ attempt

/-- A sequence of deliveries applied to a job, given the outcome of
each. -/
def runJob (j : Job) (outcomes : List Bool) : Job :=
  outcomes.foldl deliverJob j

/-- The job admitted by HiveMatrix.queueTrade: priority 1, attempts 3,
exponential backoff with base delay 1000, on the trade-execution
queue. -/
def HiveMatrix.queueTrade : Job :=
  { lane := "trade-execution", priority := 1, attempt := 0, maxAttempts := 3,
    backoff := { type := .exponential, delay := 1000 }, state := .queued }

/-- Sentiment label of a monitored tweet. -/
inductive Sentiment where
  | positive
  | negative
  | neutral
deriving DecidableEq, Repr

/-- The fields of a tweet that TwitterMonitorModule.analyzeTweets reads
when aggregating sentiment for one symbol. -/
structure Tweet where
  username : String
  sentiment : Sentiment
  sentimentScore : ℚ
deriving DecidableEq, Repr

/-- The per-tweet term of the sentiment sum: the score for positive,
its negation for negative, zero for neutral. -/
def tweetSentimentTerm (t : Tweet) : ℚ :=
  match t.sentiment with
  | .positive => t.sentimentScore
  | .negative => -t.sentimentScore
  | .neutral => 0

/-- The per-symbol body of TwitterMonitorModule.analyzeTweets: with at
least 3 tweets for the symbol, average the sentiment terms, map the
average to an action with the 0.3 thresholds, and create a pending
TWITTER_MONITOR signal capped at 95 confidence when the action is
directional; otherwise produce no signal. -/
def analyzeSymbolTweets (now : ℕ) (symbol : String) (tweets : List Tweet) :
    Option NewSignal :=
  if 3 ≤ tweets.length then
    let sentimentSum := tweets.foldl (fun acc t => acc + tweetSentimentTerm t) 0
    let avgSentiment := sentimentSum / (tweets.length : ℚ)
    let action : Action :=
      if 3/10 < avgSentiment then .buy
      else if avgSentiment < -(3/10) then .sell
      else .hold
    let confidence := |avgSentiment| * 100
    if action ≠ Action.hold then
      some { symbol := symbol, action := action,
             confidence := .num (min confidence 95), price := 0,
             timeframe := "24h", source := .TWITTER_MONITOR, status := .pending,
             expiresAt := now + 24 * 60 * 60 * 1000,
             metadata := { tweetCount := some tweets.length,
                           avgSentiment := some avgSentiment,
                           influencers := tweets.map (fun t => t.username) } }
    else none
  else none

/-- An update that keeps row ids commutes with findByPk on the updated
id. -/
lemma findByPk_updateSignal (store : List StoredSignal) (i : ℕ)
    (f : StoredSignal → StoredSignal) (hf : ∀ s, (f s).id = s.id) :
    findByPk (updateSignal store i f) i = (findByPk store i).map f := by
  unfold findByPk updateSignal
  induction store with
  | nil => rfl
  | cons a t ih =>
      by_cases h : a.id = i
      · simp [List.find?_cons, h, hf]
      · simp only [List.map_cons, List.find?_cons, if_neg h]
        have hba : (a.id == i) = false := by simp [h]
        rw [hba]
        exact ih

/-- A concrete GROK_ENGINE signal already in the terminal state
expired. -/
def expiredGrokSig : StoredSignal :=
  { id := 0, symbol := "BTC", action := .buy, confidence := .num 80,
    price := 100, timeframe := "12h", source := .GROK_ENGINE,
    status := .expired, expiresAt := 5, metadata := {} }

/-- A concrete GROK_ENGINE signal still pending although its expiresAt
(5) lies in the past of the clock values used below. -/
def pendingGrokSig : StoredSignal :=
  { id := 0, symbol := "BTC", action := .buy, confidence := .num 80,
    price := 100, timeframe := "12h", source := .GROK_ENGINE,
    status := .pending, expiresAt := 5, metadata := {} }

/-- C3: executing a signal whose stored status is terminal (anything
other than pending) fails with the invalid-transition error and leaves
the store, hence the stored status, unchanged. -/
theorem executeTrade_terminal_invalid_transition
    (store : List StoredSignal) (now signalId : ℕ) (s : StoredSignal)
    (hfind : findByPk store signalId = some s)
    (hsrc : s.source = Source.GROK_ENGINE)
    (hstatus : s.status ≠ Status.pending) :
    GrokEngine.executeTrade store now signalId
      = (.error (.invalidTransition s.status), store) := by
  unfold GrokEngine.executeTrade
  rw [hfind]
  simp [hsrc, hstatus]

/-- Witness for executeTrade_terminal_invalid_transition: executing the
already-expired signal fails and the stored row still reads expired. -/
theorem executeTrade_terminal_invalid_transition_witness :
    findByPk [expiredGrokSig] 0 = some expiredGrokSig ∧
    GrokEngine.executeTrade [expiredGrokSig] 10 0
      = (.error (.invalidTransition Status.expired), [expiredGrokSig]) := by
  have hfind : findByPk [expiredGrokSig] 0 = some expiredGrokSig := rfl
  exact ⟨hfind,
    executeTrade_terminal_invalid_transition [expiredGrokSig] 10 0
      expiredGrokSig hfind rfl (by decide)⟩

/-- C4 counterexample: a signal whose expiresAt (5) is before the clock
(10) but whose stored status is still pending is transitioned to
executed by the trade-execution path; time expiry alone does not block
execution. -/
theorem executeTrade_executes_time_expired_pending :
    pendingGrokSig.expiresAt < 10 ∧
    (GrokEngine.executeTrade [pendingGrokSig] 10 0).2
      = [{ pendingGrokSig with status := Status.executed }] := by
  constructor
  · decide
  · have hfind : findByPk [pendingGrokSig] 0 = some pendingGrokSig := rfl
    unfold GrokEngine.executeTrade
    rw [hfind]
    have hconf : JsNum.lt (JsNum.num 80) (JsNum.num 75) = false := by
      rw [JsNum.lt_num]
      simp only [decide_eq_false_iff_not]
      norm_num
    simp [pendingGrokSig, hconf, updateSignal]

/-- C4 as amended: the trade-execution path consults only the stored
status, source and confidence, never the clock: its post-state is
independent of the current time, and a signal whose stored status is
not pending is rejected with the store unchanged.  Exclusion of a
time-expired signal from execution is therefore guaranteed only once
its stored status is no longer pending, not from expiresAt itself. -/
theorem executeTrade_ignores_time_checks_status
    (store : List StoredSignal) (now now2 signalId : ℕ) :
    (GrokEngine.executeTrade store now signalId).2
      = (GrokEngine.executeTrade store now2 signalId).2 ∧
    (∀ s, findByPk store signalId = some s → s.status ≠ Status.pending →
      (GrokEngine.executeTrade store now signalId).2 = store) := by
  constructor
  · unfold GrokEngine.executeTrade
    cases hfind : findByPk store signalId with
    | none => rfl
    | some s =>
        dsimp only
        split_ifs <;> rfl
  · intro s hfind hst
    unfold GrokEngine.executeTrade
    rw [hfind]
    by_cases hsrc : s.source ≠ Source.GROK_ENGINE
    · simp [hsrc]
    · simp [hsrc, hst]

/-- Witness for executeTrade_ignores_time_checks_status at the concrete
expired signal and two clock values. -/
theorem executeTrade_ignores_time_checks_status_witness :
    (GrokEngine.executeTrade [expiredGrokSig] 10 0).2
      = (GrokEngine.executeTrade [expiredGrokSig] 20 0).2 ∧
    (GrokEngine.executeTrade [expiredGrokSig] 10 0).2 = [expiredGrokSig] := by
  refine ⟨(executeTrade_ignores_time_checks_status [expiredGrokSig] 10 20 0).1, ?_⟩
  exact (executeTrade_ignores_time_checks_status [expiredGrokSig] 10 20 0).2
    expiredGrokSig rfl (by decide)

/-- C7: dispatching a pending GROK_ENGINE signal whose confidence is
the number c cancels it with the reason recorded in metadata and
performs no trade when c < 75, and transitions it to executed when
75 ≤ c. -/
theorem executeTrade_confidence_threshold
    (store : List StoredSignal) (now signalId : ℕ) (s : StoredSignal) (c : ℚ)
    (hfind : findByPk store signalId = some s)
    (hsrc : s.source = Source.GROK_ENGINE)
    (hstatus : s.status = Status.pending)
    (hc : s.confidence = JsNum.num c) :
    (c < 75 →
      GrokEngine.executeTrade store now signalId
        = (.ok .lowConfidence,
           updateSignal store signalId (fun x =>
             { x with
                status := .cancelled,
                metadata := { x.metadata with reason := some "Low confidence" } })) ∧
      findByPk (GrokEngine.executeTrade store now signalId).2 signalId
        = some { s with
            status := .cancelled,
            metadata := { s.metadata with reason := some "Low confidence" } }) ∧
    (75 ≤ c →
      GrokEngine.executeTrade store now signalId
        = (.ok (.executed signalId s.action s.symbol s.price s.confidence now),
           updateSignal store signalId (fun x => { x with status := .executed })) ∧
      findByPk (GrokEngine.executeTrade store now signalId).2 signalId
        = some { s with status := .executed }) := by
  constructor
  · intro hcq
    have hlt : JsNum.lt s.confidence (JsNum.num 75) = true := by
      rw [hc, JsNum.lt_num]
      exact decide_eq_true hcq
    have heq : GrokEngine.executeTrade store now signalId
        = (.ok .lowConfidence,
           updateSignal store signalId (fun x =>
             { x with
                status := .cancelled,
                metadata := { x.metadata with reason := some "Low confidence" } })) := by
      unfold GrokEngine.executeTrade
      rw [hfind]
      simp [hsrc, hstatus, hlt]
    refine ⟨heq, ?_⟩
    rw [heq]
    dsimp only
    rw [findByPk_updateSignal store signalId
      (fun x =>
        { x with
           status := .cancelled,
           metadata := { x.metadata with reason := some "Low confidence" } })
      (fun x => rfl), hfind]
    rfl
  · intro hcq
    have hlt : JsNum.lt s.confidence (JsNum.num 75) = false := by
      rw [hc, JsNum.lt_num]
      exact decide_eq_false (not_lt.mpr hcq)
    have heq : GrokEngine.executeTrade store now signalId
        = (.ok (.executed signalId s.action s.symbol s.price s.confidence now),
           updateSignal store signalId (fun x => { x with status := .executed })) := by
      unfold GrokEngine.executeTrade
      rw [hfind]
      simp [hsrc, hstatus, hlt]
    refine ⟨heq, ?_⟩
    rw [heq]
    dsimp only
    rw [findByPk_updateSignal store signalId
      (fun x => { x with status := .executed }) (fun x => rfl), hfind]
    rfl

/-- Witness for executeTrade_confidence_threshold: the concrete pending
signal with confidence 80 ≥ 75 ends up executed. -/
theorem executeTrade_confidence_threshold_witness :
    findByPk [pendingGrokSig] 0 = some pendingGrokSig ∧
    pendingGrokSig.confidence = JsNum.num 80 ∧
    (75 : ℚ) ≤ 80 ∧
    findByPk (GrokEngine.executeTrade [pendingGrokSig] 7 0).2 0
      = some { pendingGrokSig with status := Status.executed } := by
  have hfind : findByPk [pendingGrokSig] 0 = some pendingGrokSig := rfl
  have hcq : (75 : ℚ) ≤ 80 := by norm_num
  exact ⟨hfind, rfl, hcq,
    ((executeTrade_confidence_threshold [pendingGrokSig] 7 0 pendingGrokSig
      80 hfind rfl rfl rfl).2 hcq).2⟩

/-- When every input confidence is a nonnegative number, the
accumulated weights are numbers with nonnegative buy and sell
components summing to at most the total. -/
lemma accumWeights_finite_bounds (signals : List StoredSignal)
    (h : ∀ x ∈ signals, ∃ c : ℚ, x.confidence = JsNum.num c ∧ 0 ≤ c) :
    ∃ b s t : ℚ, accumWeights signals = (.num b, .num s, .num t) ∧
      0 ≤ b ∧ 0 ≤ s ∧ b + s ≤ t := by
  have general : ∀ (l : List StoredSignal),
      (∀ x ∈ l, ∃ c : ℚ, x.confidence = JsNum.num c ∧ 0 ≤ c) →
      ∀ b0 s0 t0 : ℚ, 0 ≤ b0 → 0 ≤ s0 → b0 + s0 ≤ t0 →
      ∃ b s t : ℚ,
        l.foldl accumStep (.num b0, .num s0, .num t0)
          = (.num b, .num s, .num t) ∧ 0 ≤ b ∧ 0 ≤ s ∧ b + s ≤ t := by
    intro l
    induction l with
    | nil =>
        intro _ b0 s0 t0 h1 h2 h3
        exact ⟨b0, s0, t0, rfl, h1, h2, h3⟩
    | cons a l2 ih =>
        intro hl b0 s0 t0 h1 h2 h3
        obtain ⟨c, hcq, hc0⟩ := hl a (List.mem_cons_self a l2)
        have hrest : ∀ x ∈ l2, ∃ c : ℚ, x.confidence = JsNum.num c ∧ 0 ≤ c :=
          fun x hx => hl x (List.mem_cons_of_mem a hx)
        have hw0 : 0 ≤ c / 100 := div_nonneg hc0 (by norm_num)
        rw [List.foldl_cons]
        cases hA : a.action with
        | buy =>
            have hstep : accumStep (.num b0, .num s0, .num t0) a
                = (.num (b0 + c / 100), .num s0, .num (t0 + c / 100)) := by
              unfold accumStep
              rw [hcq, hA]
              dsimp only
              rw [JsNum.div_num _ _ (by norm_num), JsNum.add_num, JsNum.add_num]
            rw [hstep]
            exact ih hrest (b0 + c / 100) s0 (t0 + c / 100)
              (by linarith) h2 (by linarith)
        | sell =>
            have hstep : accumStep (.num b0, .num s0, .num t0) a
                = (.num b0, .num (s0 + c / 100), .num (t0 + c / 100)) := by
              unfold accumStep
              rw [hcq, hA]
              dsimp only
              rw [JsNum.div_num _ _ (by norm_num), JsNum.add_num, JsNum.add_num]
            rw [hstep]
            exact ih hrest b0 (s0 + c / 100) (t0 + c / 100)
              h1 (by linarith) (by linarith)
        | hold =>
            have hstep : accumStep (.num b0, .num s0, .num t0) a
                = (.num b0, .num s0, .num (t0 + c / 100)) := by
              unfold accumStep
              rw [hcq, hA]
              dsimp only
              rw [JsNum.div_num _ _ (by norm_num), JsNum.add_num]
            rw [hstep]
            exact ih hrest b0 s0 (t0 + c / 100) h1 h2 (by linarith)
  exact general signals h 0 0 0 le_rfl le_rfl (by norm_num)

/-- C5: with a nonempty eligible signal set of nonnegative numeric
confidences and positive total weight, the decision phase persists
exactly one new composite signal: the store grows by one GROK_ENGINE
row with status pending whose metadata records the ordered contributing
signal ids and the computed normalized weights, and every pre-existing
row (in particular every input signal) is untouched. -/
theorem analyzeMarket_composite_persisted
    (store : List StoredSignal) (now : ℕ) (symbol : String)
    (first : StoredSignal) (rest : List StoredSignal)
    (hconf : ∀ x ∈ first :: rest, ∃ c : ℚ, x.confidence = JsNum.num c ∧ 0 ≤ c)
    (t : ℚ) (htot : (accumWeights (first :: rest)).2.2 = JsNum.num t)
    (ht : 0 < t) :
    ∃ g : StoredSignal,
      (GrokEngine.analyzeMarket store now symbol (first :: rest)).2
        = store ++ [g] ∧
      (GrokEngine.analyzeMarket store now symbol (first :: rest)).1
        = AnalyzeResult.decision (fuseSignals (first :: rest)).action
            (fuseSignals (first :: rest)).confidence g.id
            (first :: rest).length ∧
      g.source = Source.GROK_ENGINE ∧
      g.status = Status.pending ∧
      g.metadata.signalIds = (first :: rest).map (fun s => s.id) ∧
      g.metadata.buyWeight = some (fuseSignals (first :: rest)).buyWeight ∧
      g.metadata.sellWeight = some (fuseSignals (first :: rest)).sellWeight ∧
      g.metadata.holdWeight = some (fuseSignals (first :: rest)).holdWeight := by
  obtain ⟨b, s2, t2, hacc, hb, hs, hbs⟩ := accumWeights_finite_bounds _ hconf
  have ht2 : t2 = t := by
    have hh := htot
    rw [hacc] at hh
    exact JsNum.num.inj hh
  subst ht2
  have hspec := fuseSignals_spec (first :: rest) b s2 t2 hacc ht.ne'
  have hB0 : 0 ≤ b / t2 := div_nonneg hb ht.le
  have hS0 : 0 ≤ s2 / t2 := div_nonneg hs ht.le
  have hBS : b / t2 + s2 / t2 ≤ 1 := by
    rw [div_add_div_same, div_le_one ht]
    exact hbs
  have hW : 0 ≤ (decideWeights (b / t2) (s2 / t2)).2 ∧
      (decideWeights (b / t2) (s2 / t2)).2 ≤ 100 := by
    unfold decideWeights
    split_ifs <;> constructor <;> dsimp only <;> linarith
  have hval : validConfidence (fuseSignals (first :: rest)).confidence = true := by
    rw [hspec]
    simp only [validConfidence, Bool.and_eq_true, decide_eq_true_eq]
    exact ⟨hW.1, hW.2⟩
  refine ⟨{ id := store.length, symbol := symbol,
            action := (fuseSignals (first :: rest)).action,
            confidence := (fuseSignals (first :: rest)).confidence,
            price := first.price, timeframe := "12h",
            source := .GROK_ENGINE, status := .pending,
            expiresAt := now + 12 * 60 * 60 * 1000,
            metadata := { signalSources := (first :: rest).map (fun s => s.source),
                          signalIds := (first :: rest).map (fun s => s.id),
                          buyWeight := some (fuseSignals (first :: rest)).buyWeight,
                          sellWeight := some (fuseSignals (first :: rest)).sellWeight,
                          holdWeight := some (fuseSignals (first :: rest)).holdWeight } },
    ?_, ?_, rfl, rfl, rfl, rfl, rfl, rfl⟩
  · unfold GrokEngine.analyzeMarket TradingSignal.create
    dsimp only
    rw [hval]
    rfl
  · unfold GrokEngine.analyzeMarket TradingSignal.create
    dsimp only
    rw [hval]
    rfl

/-- Witness for analyzeMarket_composite_persisted: the concrete
three-signal set is persisted as a GROK_ENGINE composite row. -/
theorem analyzeMarket_composite_persisted_witness :
    (∀ x ∈ [exSig Action.buy 90, exSig Action.buy 80, exSig Action.sell 50],
      ∃ c : ℚ, x.confidence = JsNum.num c ∧ 0 ≤ c) ∧
    (accumWeights [exSig Action.buy 90, exSig Action.buy 80,
      exSig Action.sell 50]).2.2 = JsNum.num (11/5) ∧
    (0:ℚ) < 11/5 ∧
    ∃ g : StoredSignal,
      (GrokEngine.analyzeMarket [] 0 "BTC"
        [exSig Action.buy 90, exSig Action.buy 80, exSig Action.sell 50]).2
        = [] ++ [g] ∧ g.source = Source.GROK_ENGINE := by
  have hconf : ∀ x ∈ [exSig Action.buy 90, exSig Action.buy 80,
      exSig Action.sell 50], ∃ c : ℚ, x.confidence = JsNum.num c ∧ 0 ≤ c := by
    intro x hx
    simp only [List.mem_cons, List.not_mem_nil, or_false] at hx
    rcases hx with h | h | h <;> rw [h] <;>
      first
        | exact ⟨90, rfl, by norm_num⟩
        | exact ⟨80, rfl, by norm_num⟩
        | exact ⟨50, rfl, by norm_num⟩
  have htot : (accumWeights [exSig Action.buy 90, exSig Action.buy 80,
      exSig Action.sell 50]).2.2 = JsNum.num (11/5) := by
    norm_num [accumWeights, accumStep, exSig, JsNum.div, JsNum.add]
  obtain ⟨g, h1, _, h3, _⟩ :=
    analyzeMarket_composite_persisted [] 0 "BTC" _ _ hconf (11/5) htot
      (by norm_num)
  exact ⟨hconf, htot, by norm_num, g, h1, h3⟩

/-- C6 counterexample: called with zero eligible signals the decision
phase returns the no-valid-signals failure result, not a hold decision
with confidence 0. -/
theorem analyzeMarket_empty_not_hold_decision :
    (GrokEngine.analyzeMarket [] 0 "BTC" []).1 = AnalyzeResult.noValidSignals ∧
    ¬ ∃ signalId sourceSignals, (GrokEngine.analyzeMarket [] 0 "BTC" []).1
        = AnalyzeResult.decision Action.hold (JsNum.num 0) signalId
            sourceSignals := by
  constructor
  · rfl
  · rintro ⟨i, k, h⟩
    exact AnalyzeResult.noConfusion h

/-- C6 as amended: with zero eligible input signals the decision phase
returns the success-false no-valid-signals result, leaving the store
untouched and raising no error, rather than a hold decision with
confidence 0. -/
theorem analyzeMarket_empty_returns_no_valid_signals
    (store : List StoredSignal) (now : ℕ) (symbol : String) :
    GrokEngine.analyzeMarket store now symbol []
      = (AnalyzeResult.noValidSignals, store) := rfl

/-- Delivery sequences preserve the attempt bound: starting from a job
whose attempt count is within its budget (strictly, while it is still
queued), every delivery sequence keeps attempt at most maxAttempts. -/
lemma runJob_invariant (outcomes : List Bool) : ∀ j : Job,
    j.attempt ≤ j.maxAttempts →
    (j.state = JobState.queued → j.attempt < j.maxAttempts) →
    (runJob j outcomes).attempt ≤ j.maxAttempts ∧
    (runJob j outcomes).maxAttempts = j.maxAttempts ∧
    ((runJob j outcomes).state = JobState.queued →
      (runJob j outcomes).attempt < j.maxAttempts) := by
  induction outcomes with
  | nil => intro j h1 h2; exact ⟨h1, rfl, h2⟩
  | cons b t ih =>
      intro j h1 h2
      have step : (deliverJob j b).attempt ≤ j.maxAttempts ∧
          (deliverJob j b).maxAttempts = j.maxAttempts ∧
          ((deliverJob j b).state = JobState.queued →
            (deliverJob j b).attempt < j.maxAttempts) := by
        unfold deliverJob
        by_cases hq : j.state = JobState.queued
        · have hlt := h2 hq
          rw [if_pos hq]
          dsimp only
          cases b with
          | true =>
              rw [if_pos rfl]
              exact ⟨by dsimp only; omega, rfl, fun hst => absurd hst (by simp)⟩
          | false =>
              rw [if_neg Bool.false_ne_true]
              by_cases hlt2 : j.attempt + 1 < j.maxAttempts
              · rw [if_pos hlt2]
                exact ⟨by dsimp only; omega, rfl, fun _ => hlt2⟩
              · rw [if_neg hlt2]
                exact ⟨by dsimp only; omega, rfl, fun hst => absurd hst (by simp)⟩
        · rw [if_neg hq]
          exact ⟨h1, rfl, h2⟩
      obtain ⟨s1, s2, s3⟩ := step
      have hrec := ih (deliverJob j b) (s1.trans_eq s2.symm)
        (fun hq => (s3 hq).trans_eq s2.symm)
      have hfold : runJob j (b :: t) = runJob (deliverJob j b) t := by
        unfold runJob
        rw [List.foldl_cons]
      rw [hfold]
      exact ⟨hrec.1.trans_eq s2, hrec.2.1.trans s2,
        fun hq => (hrec.2.2 hq).trans_eq s2⟩

/-- C8: HiveMatrix.queueTrade admits the trade job with maxAttempts 3
and exponential backoff of base delay 1000; along every delivery
sequence attempt stays at most 3; three straight failures leave the job
exhausted with exactly 3 attempts, and the exhausted job is immutable
under further deliveries. -/
theorem queueTrade_bounded_retries :
    HiveMatrix.queueTrade.maxAttempts = 3 ∧
    HiveMatrix.queueTrade.backoff
      = { type := BackoffType.exponential, delay := 1000 } ∧
    (∀ outcomes : List Bool,
      (runJob HiveMatrix.queueTrade outcomes).attempt ≤ 3) ∧
    runJob HiveMatrix.queueTrade [false, false, false]
      = { HiveMatrix.queueTrade with attempt := 3, state := JobState.exhausted } ∧
    (∀ outcomes : List Bool,
      runJob { HiveMatrix.queueTrade with
        attempt := 3, state := JobState.exhausted } outcomes
        = { HiveMatrix.queueTrade with
            attempt := 3, state := JobState.exhausted }) := by
  refine ⟨rfl, rfl, ?_, by decide, ?_⟩
  · intro outcomes
    exact (runJob_invariant outcomes HiveMatrix.queueTrade (by decide)
      (fun _ => by decide)).1
  · intro outcomes
    induction outcomes with
    | nil => rfl
    | cons b t ih =>
        have hfold : runJob { HiveMatrix.queueTrade with
            attempt := 3, state := JobState.exhausted } (b :: t)
            = runJob (deliverJob { HiveMatrix.queueTrade with
                attempt := 3, state := JobState.exhausted } b) t := by
          unfold runJob
          rw [List.foldl_cons]
        have hstep : deliverJob { HiveMatrix.queueTrade with
            attempt := 3, state := JobState.exhausted } b
            = { HiveMatrix.queueTrade with
                attempt := 3, state := JobState.exhausted } := by
          cases b <;> rfl
        rw [hfold, hstep]
        exact ih

/-- A confidence passing the validators is either a finite number in
[0, 100] or NaN (which slips through the isNaN short-circuit). -/
lemma validConfidence_true_cases (c : JsNum) (h : validConfidence c = true) :
    (∃ q : ℚ, c = JsNum.num q ∧ 0 ≤ q ∧ q ≤ 100) ∨ c = JsNum.nan := by
  cases c with
  | num x =>
      left
      simp only [validConfidence, Bool.and_eq_true, decide_eq_true_eq] at h
      exact ⟨x, rfl, h.1, h.2⟩
  | posInf => exact Bool.noConfusion h
  | negInf => exact Bool.noConfusion h
  | nan => exact Or.inr rfl

/-- A raw submission with every field acceptable. -/
def goodRaw : RawSignal :=
  { symbol := "BTC", action := "buy", confidence := .num 88, price := 10,
    timeframe := "4h", source := "CYBER_METRICS", status := "pending",
    expiresAt := 100, metadata := {} }

/-- A raw submission with an action outside the closed enumeration. -/
def badRaw : RawSignal :=
  { symbol := "BTC", action := "yolo", confidence := .num 88, price := 10,
    timeframe := "4h", source := "CYBER_METRICS", status := "pending",
    expiresAt := 100, metadata := {} }

/-- A raw submission whose confidence is NaN. -/
def nanRaw : RawSignal :=
  { symbol := "BTC", action := "buy", confidence := .nan, price := 10,
    timeframe := "4h", source := "CYBER_METRICS", status := "pending",
    expiresAt := 100, metadata := {} }

/-- The stored row produced by accepting goodRaw into an empty store. -/
def goodStored : StoredSignal :=
  { id := 0, symbol := "BTC", action := .buy, confidence := .num 88,
    price := 10, timeframe := "4h", source := .CYBER_METRICS,
    status := .pending, expiresAt := 100, metadata := {} }

/-- The stored row produced by accepting nanRaw into an empty store. -/
def nanStored : StoredSignal :=
  { id := 0, symbol := "BTC", action := .buy, confidence := .nan,
    price := 10, timeframe := "4h", source := .CYBER_METRICS,
    status := .pending, expiresAt := 100, metadata := {} }

/-- C9 counterexample: a submission whose confidence is NaN passes both
the min and the max validator (their isNaN short-circuit) and is stored
with confidence NaN, which is no number in [0, 100]: out-of-range
confidences are not all rejected and the stored-interval invariant
fails. -/
theorem submitSignal_accepts_nan :
    validConfidence JsNum.nan = true ∧
    (submitSignal [] nanRaw).1 = Except.ok nanStored ∧
    (submitSignal [] nanRaw).2 = [nanStored] ∧
    nanStored.confidence = JsNum.nan ∧
    ¬ ∃ q : ℚ, nanStored.confidence = JsNum.num q := by
  refine ⟨rfl, rfl, rfl, rfl, ?_⟩
  rintro ⟨q, hq⟩
  exact JsNum.noConfusion hq

/-- C9 as amended: every signal accepted by ingest carries action,
source and status from the closed enumerations (by construction), and
its stored confidence is either a finite number in [0, 100] or NaN (the
sequelize min/max validators pass NaN); the accepted row is appended to
the store, while an unrecognized action or source, or a confidence
failing the validators (finite out of range, or an infinity), is
rejected with a validation error and the store unchanged. -/
theorem submitSignal_validation (store : List StoredSignal) (r : RawSignal) :
    (∀ sig, (submitSignal store r).1 = .ok sig →
      ((∃ q : ℚ, sig.confidence = JsNum.num q ∧ 0 ≤ q ∧ q ≤ 100) ∨
        sig.confidence = JsNum.nan) ∧
      (submitSignal store r).2 = store ++ [sig]) ∧
    ((parseAction r.action = none ∨ parseSource r.source = none ∨
        validConfidence r.confidence = false) →
      (submitSignal store r).1 = .error DbError.validationFailed ∧
      (submitSignal store r).2 = store) := by
  unfold submitSignal
  rcases hA : parseAction r.action with _ | a
  · rcases hS : parseSource r.source with _ | src <;>
      rcases hT : parseStatus r.status with _ | st <;>
      exact ⟨fun sig hsig => Except.noConfusion hsig, fun _ => ⟨rfl, rfl⟩⟩
  · rcases hS : parseSource r.source with _ | src
    · rcases hT : parseStatus r.status with _ | st <;>
        exact ⟨fun sig hsig => Except.noConfusion hsig, fun _ => ⟨rfl, rfl⟩⟩
    · rcases hT : parseStatus r.status with _ | st
      · exact ⟨fun sig hsig => Except.noConfusion hsig, fun _ => ⟨rfl, rfl⟩⟩
      · dsimp only
        unfold TradingSignal.create
        dsimp only
        by_cases hV : validConfidence r.confidence = true
        · rw [if_pos hV]
          constructor
          · intro sig hsig
            cases hsig
            exact ⟨validConfidence_true_cases r.confidence hV, rfl⟩
          · intro hd
            rcases hd with hh | hh | hh
            · exact Option.noConfusion hh
            · exact Option.noConfusion hh
            · rw [hV] at hh
              exact Bool.noConfusion hh
        · rw [if_neg hV]
          exact ⟨fun sig hsig => Except.noConfusion hsig, fun _ => ⟨rfl, rfl⟩⟩

/-- Witness for submitSignal_validation: the bad action is rejected
with the store unchanged, and the good submission is stored with a
finite in-range confidence. -/
theorem submitSignal_validation_witness :
    ((submitSignal [] badRaw).1 = .error DbError.validationFailed ∧
      (submitSignal [] badRaw).2 = []) ∧
    (submitSignal [] goodRaw).1 = .ok goodStored ∧
    ((∃ q : ℚ, goodStored.confidence = JsNum.num q ∧ 0 ≤ q ∧ q ≤ 100) ∨
      goodStored.confidence = JsNum.nan) ∧
    (submitSignal [] goodRaw).2 = [] ++ [goodStored] := by
  have hbad : parseAction badRaw.action = none := rfl
  have hok : (submitSignal [] goodRaw).1 = .ok goodStored := by
    have hv : validConfidence (JsNum.num 88) = true := by
      simp only [validConfidence, Bool.and_eq_true, decide_eq_true_eq]
      norm_num
    unfold submitSignal TradingSignal.create goodRaw
    dsimp only
    rw [show parseAction "buy" = some Action.buy from rfl,
        show parseSource "CYBER_METRICS" = some Source.CYBER_METRICS from rfl,
        show parseStatus "pending" = some Status.pending from rfl]
    dsimp only
    rw [hv]
    rfl
  have hgood := (submitSignal_validation [] goodRaw).1 goodStored hok
  exact ⟨(submitSignal_validation [] badRaw).2 (Or.inl hbad), hok, hgood⟩

/-- C10: every signal the twitter sentiment analysis produces is
directional (buy or sell, never hold: hold sentiment produces no signal
at all) and its confidence is a number of at most 95, the computed
confidence being capped at 95 before the signal is created. -/
theorem twitter_signal_directional_capped
    (now : ℕ) (symbol : String) (tweets : List Tweet) (n : NewSignal)
    (h : analyzeSymbolTweets now symbol tweets = some n) :
    (n.action = Action.buy ∨ n.action = Action.sell) ∧
    ∃ q : ℚ, n.confidence = JsNum.num q ∧ q ≤ 95 := by
  unfold analyzeSymbolTweets at h
  dsimp only at h
  split_ifs at h
  all_goals obtain rfl := Option.some.inj h
  · exact ⟨Or.inl rfl, _, rfl, min_le_right _ _⟩
  · exact ⟨Or.inr rfl, _, rfl, min_le_right _ _⟩
  · exact absurd rfl (by assumption)

/-- Three strongly positive tweets for one symbol. -/
def c10tweets : List Tweet :=
  [{ username := "a", sentiment := .positive, sentimentScore := 9/10 },
   { username := "b", sentiment := .positive, sentimentScore := 9/10 },
   { username := "c", sentiment := .positive, sentimentScore := 9/10 }]

/-- The signal the sentiment analysis produces from c10tweets. -/
def c10sig : NewSignal :=
  { symbol := "BTC", action := .buy, confidence := .num 90, price := 0,
    timeframe := "24h", source := .TWITTER_MONITOR, status := .pending,
    expiresAt := 86400000,
    metadata := { tweetCount := some 3, avgSentiment := some (9/10),
                  influencers := ["a", "b", "c"] } }

/-- Witness for twitter_signal_directional_capped at the concrete tweet
set: a buy signal with confidence 90 ≤ 95. -/
theorem twitter_signal_directional_capped_witness :
    analyzeSymbolTweets 0 "BTC" c10tweets = some c10sig ∧
    (c10sig.action = Action.buy ∨ c10sig.action = Action.sell) ∧
    ∃ q : ℚ, c10sig.confidence = JsNum.num q ∧ q ≤ 95 := by
  have h : analyzeSymbolTweets 0 "BTC" c10tweets = some c10sig := by
    unfold analyzeSymbolTweets c10tweets c10sig tweetSentimentTerm
    norm_num [min_def, abs_of_nonneg]
    intro hcon
    exact Action.noConfusion hcon
  exact ⟨h, twitter_signal_directional_capped 0 "BTC" c10tweets c10sig h⟩

end SmartX
